import Mathlib

/-!
Verification development for the terminal analytics engine of the
database-agents repository, source file analytics_visualizer.py.

The Python module is shallowly embedded: pandas DataFrames become a typed
list of named columns, Python floats become exact rationals, rendered Rich
panels and layouts become explicit inductive artifacts, and the ambient
clock read by the dashboard header becomes an explicit string argument.
-/

namespace AnalyticsViz

/-- Truncation toward zero, modelling the Python int conversion applied to a
rational value. -/
def truncQ (q : ℚ) : ℤ := if 0 ≤ q then ⌊q⌋ else ⌈q⌉

/-- Nearest integer with ties to even, modelling the rounding performed by
Python fixed-point string formatting (IEEE round half to even, exact on the
rational model). -/
def roundHalfEven (q : ℚ) : ℤ :=
  if q - ⌊q⌋ < 1/2 then ⌊q⌋
  else if 1/2 < q - ⌊q⌋ then ⌊q⌋ + 1
  else if ⌊q⌋ % 2 = 0 then ⌊q⌋ else ⌊q⌋ + 1

/-- Fixed-point rendering with `d` decimal digits, modelling the Python
format specifier with precision `d`.  A value rounding to zero is rendered
without a sign. -/
def fmtFix (d : ℕ) (q : ℚ) : String :=
  let m := roundHalfEven (q * (10 : ℚ) ^ d)
  let s := m.natAbs
  let ip := s / 10 ^ d
  let fp := s % 10 ^ d
  let fpStr := toString fp
  (if m < 0 then "-" else "") ++ toString ip ++
    (if d = 0 then "" else "." ++ String.mk (List.replicate (d - fpStr.length) '0') ++ fpStr)

/-- Right alignment to width `w` with spaces, as in Python format alignment. -/
def padLeft (w : ℕ) (s : String) : String :=
  String.mk (List.replicate (w - s.length) ' ') ++ s

/-- Left alignment to width `w` with spaces, as in Python format alignment. -/
def padRight (w : ℕ) (s : String) : String :=
  s ++ String.mk (List.replicate (w - s.length) ' ')

/-- Group a digit list into runs of three, used for thousands grouping. -/
def chunk3 (l : List Char) : List (List Char) :=
  if h : l = [] then [] else l.take 3 :: chunk3 (l.drop 3)
termination_by l.length
decreasing_by
  simp only [List.length_drop]
  have hl : l.length ≠ 0 := fun h0 => h (List.eq_nil_of_length_eq_zero h0)
  omega

/-- Render a natural number with commas every three digits, as the Python
comma format specifier does. -/
def fmtThousands (n : ℕ) : String :=
  String.intercalate "," (((chunk3 (toString n).data.reverse).reverse).map
    (fun g => String.mk g.reverse))

/-! ## Renderable artifacts

A Rich panel is modelled by its observable content: a body which is a text
block, a table or a columns row, an optional title and an optional border
style. -/

/-- A rendered table: optional title, header cells and a matrix of
pre-formatted cell strings. -/
structure RTable where
  title : Option String
  header : List String
  rows : List (List String)
deriving DecidableEq

/-- Body of a panel. -/
inductive PanelBody where
  | text (s : String)
  | table (t : RTable)
  | cols (items : List String)
deriving DecidableEq

/-- A Rich panel: body plus optional title and border style. -/
structure Panel where
  body : PanelBody
  title : Option String
  border : Option String
deriving DecidableEq

/-! ## Bar chart renderer (create_bar_chart) -/

/-- Ordered insertion used by the stable descending sort: an element is
placed before the first position whose value does not exceed it, so equal
values keep their original relative order. -/
def insertDesc {α : Type} (x : α × ℚ) : List (α × ℚ) → List (α × ℚ)
  | [] => [x]
  | y :: ys => if y.2 ≤ x.2 then x :: y :: ys else y :: insertDesc x ys

/-- Stable sort by value descending, modelling the Python sorted call with a
value key and reverse order. -/
def sortDesc {α : Type} : List (α × ℚ) → List (α × ℚ)
  | [] => []
  | x :: xs => insertDesc x (sortDesc xs)

/-- The surviving chart entries: sorted descending by value and truncated to
the bar limit, as in the source. -/
def chartEntries {α : Type} (d : List (α × ℚ)) (maxBars : ℕ) : List (α × ℚ) :=
  (sortDesc d).take maxBars

/-- Maximum of the surviving values, defaulting to 1 on an empty sequence,
as in the source. -/
def maxValOf {α : Type} (entries : List (α × ℚ)) : ℚ :=
  match entries.map Prod.snd with
  | [] => 1
  | v :: vs => vs.foldl max v

/-- Maximum stringified label width of the surviving entries, defaulting to
10 on an empty sequence, as in the source. -/
def maxLabelWidth (entries : List (String × ℚ)) : ℕ :=
  match entries.map (fun e => e.1.length) with
  | [] => 10
  | n :: ns => ns.foldl max n

/-- Width of the fill bar: the value scaled against the maximum to a width
of 40 and truncated toward zero, or 0 when the maximum is not positive. -/
def barWidth (v maxv : ℚ) : ℕ :=
  if 0 < maxv then (truncQ (v / maxv * 40)).toNat else 0

/-- The value cell of a chart line: fixed-point with zero decimals, right
aligned to width 8, as in the source. -/
def valueStr (v : ℚ) : String := padLeft 8 (fmtFix 0 v)

/-- One structured line of the bar chart. -/
structure ChartLine where
  labelStr : String
  bar : String
  valueStr : String
  pctStr : String
deriving DecidableEq

/-- Build one chart line from an entry given the label width and value
maximum of the surviving entries. -/
def mkChartLine (maxw : ℕ) (maxv : ℚ) (e : String × ℚ) : ChartLine :=
  { labelStr := padRight maxw (e.1.take maxw)
    bar := String.mk (List.replicate (barWidth e.2 maxv) '#')
    valueStr := valueStr e.2
    pctStr := padLeft 5 (fmtFix 1 (if 0 < maxv then e.2 / maxv * 100 else 0)) }

/-- Concatenate a structured chart line into its final text form. -/
def renderChartLine (l : ChartLine) : String :=
  l.labelStr ++ " | " ++ padRight 40 l.bar ++ " | " ++ l.valueStr ++
    " (" ++ l.pctStr ++ "%)"

/-- All chart lines for the given data and bar limit. -/
def chartLines (d : List (String × ℚ)) (maxBars : ℕ) : List ChartLine :=
  (chartEntries d maxBars).map
    (mkChartLine (maxLabelWidth (chartEntries d maxBars))
                 (maxValOf (chartEntries d maxBars)))

/-- The horizontal bar chart renderer.  The Python dict input is modelled as
an association list with distinct keys; insertion order is list order. -/
def create_bar_chart (d : List (String × ℚ)) (title : String) (maxBars : ℕ) : Panel :=
  if d = [] then ⟨.text "[red]No data for chart[/red]", some title, none⟩
  else
    ⟨.text (String.intercalate "\n" ((chartLines d maxBars).map renderChartLine)),
      some title, some "blue"⟩

/-! ## Dataset model

A pandas DataFrame is modelled as a list of named, typed columns.  The
dtype of a column is fixed at ingestion: numeric columns (with a flag
recording an integer dtype, which only affects preview cell formatting),
text columns (pandas object or string dtype) and temporal columns (excluded
from both the numeric and the text selections, like datetime64 columns). -/

/-- Typed column payload. -/
inductive ColData where
  | numeric (isInt : Bool) (vals : List (Option ℚ))
  | text (vals : List (Option String))
  | temporal (vals : List (Option ℤ))
deriving DecidableEq

/-- A named column. -/
structure Col where
  name : String
  data : ColData
deriving DecidableEq

/-- A DataFrame: a rectangular list of columns. -/
structure DF where
  cols : List Col
deriving DecidableEq

/-- Number of cells of a column. -/
def ColData.size : ColData → ℕ
  | .numeric _ vs => vs.length
  | .text vs => vs.length
  | .temporal vs => vs.length

/-- Whether a column has numeric dtype. -/
def Col.isNumeric (c : Col) : Bool :=
  match c.data with
  | .numeric _ _ => true
  | _ => false

/-- Whether a column has text dtype. -/
def Col.isText (c : Col) : Bool :=
  match c.data with
  | .text _ => true
  | _ => false

/-- Numeric cells of a column, empty for non-numeric columns. -/
def Col.numVals (c : Col) : List (Option ℚ) :=
  match c.data with
  | .numeric _ vs => vs
  | _ => []

/-- Text cells of a column, empty for non-text columns. -/
def Col.textVals (c : Col) : List (Option String) :=
  match c.data with
  | .text vs => vs
  | _ => []

/-- The numeric column selection, in declaration order, modelling
select_dtypes over number. -/
def numericColumns (df : DF) : List Col := df.cols.filter Col.isNumeric

/-- The text column selection, in declaration order, modelling
select_dtypes over object and string. -/
def textColumns (df : DF) : List Col := df.cols.filter Col.isText

/-- Row count of a DataFrame (all columns share one length). -/
def DF.nrows (df : DF) : ℕ :=
  match df.cols with
  | [] => 0
  | c :: _ => c.data.size

/-- Emptiness as pandas defines it: no columns or no rows. -/
def DF.isEmpty (df : DF) : Bool := df.cols.isEmpty || df.nrows == 0

/-- Drop nulls from a numeric column. -/
def dropnaQ (vs : List (Option ℚ)) : List ℚ := vs.filterMap id

/-- Drop nulls from a text column. -/
def dropnaS (vs : List (Option String)) : List String := vs.filterMap id

/-- Drop nulls from a temporal column. -/
def dropnaT (vs : List (Option ℤ)) : List ℤ := vs.filterMap id

/-- Minimum of a list of rationals (0 on the empty list; only used on
non-empty input, mirroring the source guards). -/
def listMin : List ℚ → ℚ
  | [] => 0
  | v :: vs => vs.foldl min v

/-- Maximum of a list of rationals (0 on the empty list; only used on
non-empty input, mirroring the source guards). -/
def listMax : List ℚ → ℚ
  | [] => 0
  | v :: vs => vs.foldl max v

/-- Sum of a list of rationals. -/
def sumQ (l : List ℚ) : ℚ := l.sum

/-- Mean of a list of rationals (0 on the empty list, which division by the
zero length yields on the rational model). -/
def meanQ (l : List ℚ) : ℚ := l.sum / l.length

/-- First-seen deduplication, modelling the ordering of pandas unique
values. -/
def uniques {α : Type} [DecidableEq α] (l : List α) : List α :=
  l.foldl (fun acc x => if x ∈ acc then acc else acc ++ [x]) []

/-- Frequency table sorted by count descending with ties in first-seen
order, modelling value_counts. -/
def value_counts {α : Type} [DecidableEq α] (vs : List α) : List (α × ℚ) :=
  sortDesc ((uniques vs).map (fun v => (v, (vs.count v : ℚ))))

/-! ## Summary statistics engine (create_summary_stats) -/

/-- Abstract stand-in for the pandas deep memory-usage heuristic: the
specification treats it as a byte-size estimate and no claim depends on
its exact value. -/
def memBytes (df : DF) : ℕ := 128 + 8 * df.nrows * df.cols.length

/-- The per-column statistic rows of one numeric column: average and
min-max, emitted only when at least one non-null value remains. -/
def perColStatRows (c : Col) : List (String × String) :=
  let vs := dropnaQ c.numVals
  if vs = [] then []
  else
    [("  " ++ c.name ++ " (avg)", fmtFix 2 (meanQ vs)),
     ("  " ++ c.name ++ " (min-max)", fmtFix 2 (listMin vs) ++ " - " ++ fmtFix 2 (listMax vs))]

/-- The numeric subsection of the summary table: the count header followed
by per-column rows of the first five numeric columns. -/
def summaryNumericSection (df : DF) : List (String × String) :=
  if numericColumns df = [] then []
  else ("[bold]Numeric Columns[/bold]", toString (numericColumns df).length) ::
    ((numericColumns df).take 5).flatMap perColStatRows

/-- Count of distinct non-null values of a text column, modelling nunique. -/
def uniqueCount (vs : List (Option String)) : ℕ := (uniques (dropnaS vs)).length

/-- The text subsection of the summary table: the count header followed by
unique-count rows of the first three text columns. -/
def summaryTextSection (df : DF) : List (String × String) :=
  if textColumns df = [] then []
  else ("[bold]Text Columns[/bold]", toString (textColumns df).length) ::
    ((textColumns df).take 3).map
      (fun c => ("  " ++ c.name ++ " (unique)", toString (uniqueCount c.textVals)))

/-- All metric-value rows of the summary table, in emission order. -/
def summaryRows (df : DF) : List (String × String) :=
  [("Total Records", fmtThousands df.nrows),
   ("Columns", toString df.cols.length),
   ("Memory Usage", fmtFix 1 ((memBytes df : ℚ) / 1024) ++ " KB")]
  ++ summaryNumericSection df ++ summaryTextSection df

/-- The summary statistics panel. -/
def create_summary_stats (df : DF) (title : String) : Panel :=
  if df.isEmpty then ⟨.text "[red]No data available[/red]", some title, none⟩
  else
    ⟨.table ⟨some title, ["Metric", "Value"], (summaryRows df).map (fun p => [p.1, p.2])⟩,
      none, some "green"⟩

/-! ## Data table renderer (create_data_table) -/

/-- Preview formatting of a cell at a row index: null marker, two-decimal
floats, plain integers, strings truncated to 50 characters and temporal
values stringified. -/
def Col.cell (c : Col) (i : ℕ) : String :=
  match c.data with
  | .numeric isInt vs =>
    match vs.getD i none with
    | none => "[dim]NULL[/dim]"
    | some q => if isInt then toString (truncQ q) else fmtFix 2 q
  | .text vs =>
    match vs.getD i none with
    | none => "[dim]NULL[/dim]"
    | some s => s.take 50
  | .temporal vs =>
    match vs.getD i none with
    | none => "[dim]NULL[/dim]"
    | some z => (toString z).take 50

/-- The row-limited preview table panel. -/
def create_data_table (df : DF) (title : String) (maxRows : ℕ) : Panel :=
  if df.isEmpty then ⟨.text "[red]No data available[/red]", some title, none⟩
  else
    ⟨.table ⟨some (title ++ " (showing " ++ toString (min maxRows df.nrows) ++ " of "
          ++ toString df.nrows ++ " rows)"),
        df.cols.map Col.name,
        (List.range (min maxRows df.nrows)).map (fun i => df.cols.map (fun c => c.cell i))⟩,
      none, some "cyan"⟩

/-! ## Distribution and histogram engine (create_distribution_chart) -/

/-- One histogram bin: bounds and count. -/
structure Bin where
  lo : ℚ
  hi : ℚ
  count : ℕ
deriving DecidableEq

/-- Count of the values falling into a bin; every bin is half-open on the
right except the last one, which is closed, as numpy documents. -/
def binCount (lo hi : ℚ) (isLast : Bool) (vals : List ℚ) : ℕ :=
  (vals.filter (fun v => decide (lo ≤ v ∧ (v < hi ∨ (isLast = true ∧ v ≤ hi))))).length

/-- Lower edge of the histogram range: the minimum value, widened by one
half when the range is degenerate, as numpy does. -/
def histLo (vals : List ℚ) : ℚ :=
  if listMin vals = listMax vals then listMin vals - 1/2 else listMin vals

/-- Upper edge of the histogram range: the maximum value, widened by one
half when the range is degenerate, as numpy does. -/
def histHi (vals : List ℚ) : ℚ :=
  if listMin vals = listMax vals then listMax vals + 1/2 else listMax vals

/-- Common width of the histogram bins. -/
def histW (vals : List ℚ) (B : ℕ) : ℚ := (histHi vals - histLo vals) / B

/-- The i-th histogram bin: edges advance by the common width, and the last
bin is closed on the right. -/
def binAt (vals : List ℚ) (B : ℕ) (i : ℕ) : Bin :=
  ⟨histLo vals + i * histW vals B,
   histLo vals + (i + 1) * histW vals B,
   binCount (histLo vals + i * histW vals B)
     (histLo vals + (i + 1) * histW vals B) (i == B - 1) vals⟩

/-- Equal-width histogram over the value range, modelling np.histogram on
exact rationals: a degenerate range is widened by one half on each side,
and the computation fails (raises, in the source wrapped by a bare except)
exactly when there is no data or the bin count is zero. -/
def npHistogram (vals : List ℚ) (B : ℕ) : Option (List Bin) :=
  if vals = [] ∨ B = 0 then none
  else some ((List.range B).map (binAt vals B))

/-- The interval label of a bin, one decimal on each bound. -/
def binLabel (b : Bin) : String := fmtFix 1 b.lo ++ "-" ++ fmtFix 1 b.hi

/-- Python dict insertion: an existing key keeps its position and gets the
new value, a new key is appended. -/
def dictInsert (k : String) (v : ℚ) : List (String × ℚ) → List (String × ℚ)
  | [] => [(k, v)]
  | p :: ps => if p.1 = k then (k, v) :: ps else p :: dictInsert k v ps

/-- Build a Python dict (as an association list) from a pair sequence by
repeated insertion. -/
def dictOf (ps : List (String × ℚ)) : List (String × ℚ) :=
  ps.foldl (fun d p => dictInsert p.1 p.2 d) []

/-- The chart data of the numeric distribution path: labelled histogram
counts, or on binning failure the top-of-frequency fallback with the
numeric values stringified (the bare except branch of the source). -/
def numericDistData (vals : List ℚ) (B : ℕ) : List (String × ℚ) :=
  match npHistogram vals B with
  | some bs => dictOf (bs.map (fun b => (binLabel b, (b.count : ℚ))))
  | none => ((value_counts vals).take B).map (fun p => (toString p.1, p.2))

/-- The histogram-like distribution chart over one column. -/
def create_distribution_chart (s : ColData) (title : String) (bins : ℕ) : Panel :=
  if s.size = 0 then ⟨.text "[red]No data available[/red]", some title, none⟩
  else
    match s with
    | .text vs =>
      if dropnaS vs = [] then
        ⟨.text "[red]No valid data after removing nulls[/red]", some title, none⟩
      else create_bar_chart ((value_counts (dropnaS vs)).take bins)
        (title ++ " Distribution") 20
    | .numeric _ vs =>
      if dropnaQ vs = [] then
        ⟨.text "[red]No valid data after removing nulls[/red]", some title, none⟩
      else create_bar_chart (numericDistData (dropnaQ vs) bins)
        (title ++ " Distribution") 20
    | .temporal vs =>
      if dropnaT vs = [] then
        ⟨.text "[red]No valid data after removing nulls[/red]", some title, none⟩
      else create_bar_chart
        (((value_counts (dropnaT vs)).take bins).map (fun p => (toString p.1, p.2)))
        (title ++ " Distribution") 20

/-- Whether a column payload keeps at least one value after dropping
nulls: the guard under which the distribution engine reaches its bar
chart. -/
def ColData.hasNonNull : ColData → Bool
  | .numeric _ vs => !(dropnaQ vs).isEmpty
  | .text vs => !(dropnaS vs).isEmpty
  | .temporal vs => !(dropnaT vs).isEmpty

/-! ## Correlation matrix engine (create_correlation_matrix)

Pandas computes the Pearson coefficient r of two columns over their
pairwise complete observations as the deviation cross sum divided by the
square root of the product of the two deviation square sums.  Since that
square root is irrational in general, a matrix entry is represented
exactly by the signed square of r, namely r times the absolute value of r,
which determines r uniquely and monotonically; symmetry, the unit
diagonal and the tier thresholds transfer verbatim. -/

/-- Pairwise complete observations of two columns. -/
def pairComplete (x y : List (Option ℚ)) : List (ℚ × ℚ) :=
  (x.zip y).filterMap (fun p =>
    match p with
    | (some a, some b) => some (a, b)
    | _ => none)

/-- Deviation cross sum of a pair list. -/
def sxy (ps : List (ℚ × ℚ)) : ℚ :=
  (ps.map (fun p =>
    (p.1 - meanQ (ps.map Prod.fst)) * (p.2 - meanQ (ps.map Prod.snd)))).sum

/-- Deviation square sum of the first coordinates. -/
def sxx (ps : List (ℚ × ℚ)) : ℚ := sxy (ps.map (fun p => (p.1, p.1)))

/-- Deviation square sum of the second coordinates. -/
def syy (ps : List (ℚ × ℚ)) : ℚ := sxy (ps.map (fun p => (p.2, p.2)))

/-- Signed square of the Pearson correlation of two columns over their
pairwise complete observations; missing (the pandas NaN) when no pair
remains or a deviation square sum vanishes. -/
def corrSS (x y : List (Option ℚ)) : Option ℚ :=
  if pairComplete x y = [] then none
  else if sxx (pairComplete x y) * syy (pairComplete x y) = 0 then none
  else some (sxy (pairComplete x y) * |sxy (pairComplete x y)| /
    (sxx (pairComplete x y) * syy (pairComplete x y)))

/-- Numeric cells of the i-th numeric column, empty out of range. -/
def numColVals (df : DF) (i : ℕ) : List (Option ℚ) :=
  ((numericColumns df).map Col.numVals).getD i []

/-- Entry of the computed correlation matrix at numeric column indices. -/
def corrEntry (df : DF) (i j : ℕ) : Option ℚ :=
  corrSS (numColVals df i) (numColVals df j)

/-- Correlation strength tiers. -/
inductive Tier where
  | strong
  | moderate
  | weak
deriving DecidableEq

/-- The tier of a correlation value, with the strict greater-than
boundaries of the source: absolute value above 0.7 is strong, above 0.3 is
moderate, otherwise weak. -/
def tier (v : ℚ) : Tier :=
  if 7/10 < |v| then .strong
  else if 3/10 < |v| then .moderate
  else .weak

/-- The tier read off the signed square of a correlation value; the
thresholds are the squares of the source thresholds. -/
def tierOfSS (ss : ℚ) : Tier :=
  if 49/100 < |ss| then .strong
  else if 9/100 < |ss| then .moderate
  else .weak

/-- Rendered matrix cell: the missing marker or the value wrapped in the
tier markup.  The digits shown stand for the signed square representation
of the entry; no claim depends on them, only on the markup tier and the
matrix structure. -/
def corrCell (v : Option ℚ) : String :=
  match v with
  | none => "-"
  | some ss =>
    match tierOfSS ss with
    | .strong => "[bold red]" ++ fmtFix 2 ss ++ "[/bold red]"
    | .moderate => "[yellow]" ++ fmtFix 2 ss ++ "[/yellow]"
    | .weak => "[dim]" ++ fmtFix 2 ss ++ "[/dim]"

/-- The correlation matrix panel: the structural placeholder below two
numeric columns or with no rows, otherwise the rendered matrix table with
headers truncated to 10 and row labels to 15 characters. -/
def create_correlation_matrix (df : DF) (title : String) : Panel :=
  if (numericColumns df).length < 2 ∨ df.nrows = 0 then
    ⟨.text "[yellow]Not enough numeric columns for correlation[/yellow]", some title, none⟩
  else
    ⟨.table ⟨some title,
        "" :: (numericColumns df).map (fun c => c.name.take 10),
        (List.range (numericColumns df).length).map (fun i =>
          ((numericColumns df).getD i ⟨"", .text []⟩).name.take 15 ::
            (List.range (numericColumns df).length).map
              (fun j => corrCell (corrEntry df i j)))⟩,
      none, some "magenta"⟩

/-! ## Dashboard layout composer (create_analytics_dashboard) -/

/-- Content of one chart pane of the dashboard: either a populated panel
or the untouched default pane of the layout skeleton. -/
inductive PaneContent where
  | unset
  | pane (p : Panel)
deriving DecidableEq

/-- The informational placeholder panel of the single-text-column branch. -/
def addMorePanel : Panel :=
  ⟨.text "[yellow]Add more data for additional charts[/yellow]", none, none⟩

/-- Top-ten value-counts bar chart of a text column. -/
def topValuesPanel (c : Col) : Panel :=
  create_bar_chart ((value_counts (dropnaS c.textVals)).take 10)
    ("Top " ++ c.name ++ " Values") 20

/-- Chart pane 1 selection: the distribution of the first numeric column
when one exists, otherwise the top values of the first text column when
one exists, otherwise untouched. -/
def dashChart1 (df : DF) : PaneContent :=
  match numericColumns df, textColumns df with
  | c :: _, _ => .pane (create_distribution_chart c.data (c.name ++ " Distribution") 10)
  | [], t :: _ => .pane (topValuesPanel t)
  | [], [] => .unset

/-- Chart pane 2 selection, mirroring the source branch for branch: the
correlation matrix with two or more numeric columns; the top values of the
first text column with exactly one numeric column and a text column;
untouched with exactly one numeric column and no text column; with no
numeric column, the top values of the second text column, the placeholder
with exactly one text column, or untouched with none. -/
def dashChart2 (df : DF) : PaneContent :=
  match numericColumns df, textColumns df with
  | _ :: _ :: _, _ => .pane (create_correlation_matrix df "Correlation Matrix")
  | [_], t :: _ => .pane (topValuesPanel t)
  | [_], [] => .unset
  | [], _ :: t2 :: _ => .pane (topValuesPanel t2)
  | [], [_] => .pane addMorePanel
  | [], [] => .unset

/-- The composed dashboard: fixed header with the ambient clock reading,
summary and preview panes on the left, chart panes on the right. -/
structure DashLayout where
  header : Panel
  stats : Panel
  preview : Panel
  chart1 : PaneContent
  chart2 : PaneContent
deriving DecidableEq

/-- Build the dashboard layout; the clock reading enters the header text. -/
def create_analytics_dashboard (df : DF) (title : String) (now : String) : DashLayout :=
  { header := ⟨.cols [title, "Generated: " ++ now], none, some "blue"⟩
    stats := create_summary_stats df "Dataset Overview"
    preview := create_data_table df "Data Preview" 10
    chart1 := dashChart1 df
    chart2 := dashChart2 df }

/-! ## Render dispatcher (display_analytics) -/

/-- A scalar cell of raw input. -/
inductive Scalar where
  | num (q : ℚ)
  | str (s : String)
  | null
deriving DecidableEq

/-- Raw input accepted by the dispatcher: a record sequence, a single flat
mapping, or an already tabular frame. -/
inductive RawInput where
  | records (rs : List (List (String × Scalar)))
  | mapping (m : List (String × Scalar))
  | frame (df : DF)

/-- Whether a scalar is numeric. -/
def Scalar.isNum : Scalar → Bool
  | .num _ => true
  | _ => false

/-- Whether a scalar is an integral number. -/
def Scalar.isIntNum : Scalar → Bool
  | .num q => q.den == 1
  | _ => false

/-- Rendering of a scalar into a text cell, used when a mixed column
degrades to object dtype. -/
def Scalar.asText : Scalar → Option String
  | .num q => some (toString q)
  | .str s => some s
  | .null => none

/-- Dtype inference for one ingested column, modelling pandas: all
non-null cells numeric gives a numeric column (an integer dtype exactly
when every cell is a non-null integer), anything else degrades to an
object column of stringified cells. -/
def colFromScalars (name : String) (vs : List Scalar) : Col :=
  if (vs.filter (fun s => s ≠ .null)).all Scalar.isNum then
    ⟨name, .numeric (vs.all Scalar.isIntNum)
      (vs.map (fun s => match s with | .num q => some q | _ => none))⟩
  else ⟨name, .text (vs.map Scalar.asText)⟩

/-- Keys of a record sequence: the union of the record keys in first-seen
order. -/
def recordKeys (rs : List (List (String × Scalar))) : List String :=
  uniques (rs.flatMap (fun r => r.map Prod.fst))

/-- Cell of a record at a key: an absent key reads as null, like the
pandas NaN fill. -/
def recordCell (r : List (String × Scalar)) (k : String) : Scalar :=
  match r.find? (fun p => p.1 == k) with
  | some p => p.2
  | none => .null

/-- Input normalization of the dispatcher: records become one row each, a
single mapping becomes a one-row frame (for scalar cells the pandas
constructor of the source never raises, so its key-value fallback is
unreachable), a frame passes through. -/
def normalize : RawInput → DF
  | .records rs => ⟨(recordKeys rs).map (fun k =>
      colFromScalars k (rs.map (fun r => recordCell r k)))⟩
  | .mapping m => ⟨(recordKeys [m]).map (fun k =>
      colFromScalars k [recordCell m k])⟩
  | .frame df => df

/-- The output artifact of the dispatcher. -/
inductive Artifact where
  | panel (p : Panel)
  | layout (l : DashLayout)
deriving DecidableEq

/-- The placeholder panel printed for an empty normalized dataset. -/
def emptyDataPanel (title : String) : Panel :=
  ⟨.text "[yellow]No data available for analytics[/yellow]", some title, none⟩

/-- The sole external entry point: normalize, short-circuit on emptiness,
then dispatch on the view tag with the dashboard as default.  The clock
reading consumed by the dashboard header is an explicit argument. -/
def display_analytics (inp : RawInput) (analyticsType : String) (title : String)
    (now : String) : Artifact :=
  if (normalize inp).isEmpty then .panel (emptyDataPanel title)
  else if analyticsType = "dashboard" then
    .layout (create_analytics_dashboard (normalize inp) title now)
  else if analyticsType = "summary" then
    .panel (create_summary_stats (normalize inp) title)
  else if analyticsType = "table" then
    .panel (create_data_table (normalize inp) title 20)
  else if analyticsType = "correlation" then
    .panel (create_correlation_matrix (normalize inp) title)
  else .layout (create_analytics_dashboard (normalize inp) title now)

/-- The rendered rows of a panel whose body is a table, empty otherwise. -/
def panelTableRows (p : Panel) : List (List String) :=
  match p.body with
  | .table t => t.rows
  | _ => []

/-! ## Shared lemmas -/

/-- Every branch of the bar chart renderer titles its panel with the given
title. -/
theorem create_bar_chart_title (d : List (String × ℚ)) (t : String) (mb : ℕ) :
    (create_bar_chart d t mb).title = some t := by
  unfold create_bar_chart
  split <;> rfl

/-- The tier read off the signed square of a value agrees with the tier of
the value itself, justifying the signed-square matrix representation. -/
theorem tierOfSS_signed_sq (r : ℚ) : tierOfSS (r * |r|) = tier r := by
  have habs : abs (r * abs r) = abs r * abs r := by
    rw [abs_mul, abs_abs]
  have h7 : (49/100 : ℚ) < |r| * |r| ↔ 7/10 < |r| := by
    constructor
    · intro h
      by_contra hc
      push_neg at hc
      nlinarith [abs_nonneg r]
    · intro h
      nlinarith
  have h3 : (9/100 : ℚ) < |r| * |r| ↔ 3/10 < |r| := by
    constructor
    · intro h
      by_contra hc
      push_neg at hc
      nlinarith [abs_nonneg r]
    · intro h
      nlinarith
  unfold tierOfSS tier
  rw [habs]
  by_cases hs : (7/10 : ℚ) < |r|
  · rw [if_pos (h7.mpr hs), if_pos hs]
  · rw [if_neg (fun hh => hs (h7.mp hh)), if_neg hs]
    by_cases hm : (3/10 : ℚ) < |r|
    · rw [if_pos (h3.mpr hm), if_pos hm]
    · rw [if_neg (fun hh => hm (h3.mp hh)), if_neg hm]

/-! ## C5: tier boundaries -/

/-- C5 (confirmed): the tier classification uses strict greater-than
boundaries: 0.75 is strong, exactly 0.70 is moderate and not strong, 0.20
is weak. -/
theorem tier_strict_boundaries :
    tier (3/4) = Tier.strong ∧ tier (7/10) = Tier.moderate ∧ tier (1/5) = Tier.weak := by
  with_unfolding_all decide

/-! ## C3: the distribution engine appends the title suffix itself -/

/-- C3 counterexample: at a concrete one-value text column with title
Sales, the distribution chart does not carry exactly the given title,
contradicting the claim that the engine never appends the suffix. -/
theorem distribution_title_cex :
    (create_distribution_chart (ColData.text [some "a"]) "Sales" 10).title ≠ some "Sales" := by
  with_unfolding_all decide

/-- C3 (corrected): whenever a value survives null dropping, the engine
itself appends the Distribution suffix to the title it was given, so the
bar chart carries the suffixed title, not the given one; the dashboard
caller appends the same word again, doubling it. -/
theorem distribution_title_gets_suffix (s : ColData) (t : String) (bins : ℕ)
    (h : s.hasNonNull = true) :
    (create_distribution_chart s t bins).title = some (t ++ " Distribution") := by
  cases s with
  | numeric isInt vs =>
    have hcl : dropnaQ vs ≠ [] := by
      intro he
      simp [ColData.hasNonNull, he] at h
    have hsz : ¬ vs.length = 0 := by
      intro h0
      exact hcl (by simp [dropnaQ, List.eq_nil_of_length_eq_zero h0])
    unfold create_distribution_chart
    dsimp only [ColData.size]
    rw [if_neg hsz, if_neg hcl]
    exact create_bar_chart_title _ _ _
  | text vs =>
    have hcl : dropnaS vs ≠ [] := by
      intro he
      simp [ColData.hasNonNull, he] at h
    have hsz : ¬ vs.length = 0 := by
      intro h0
      exact hcl (by simp [dropnaS, List.eq_nil_of_length_eq_zero h0])
    unfold create_distribution_chart
    dsimp only [ColData.size]
    rw [if_neg hsz, if_neg hcl]
    exact create_bar_chart_title _ _ _
  | temporal vs =>
    have hcl : dropnaT vs ≠ [] := by
      intro he
      simp [ColData.hasNonNull, he] at h
    have hsz : ¬ vs.length = 0 := by
      intro h0
      exact hcl (by simp [dropnaT, List.eq_nil_of_length_eq_zero h0])
    unfold create_distribution_chart
    dsimp only [ColData.size]
    rw [if_neg hsz, if_neg hcl]
    exact create_bar_chart_title _ _ _

/-- C3 witness: the amended statement evaluated at a concrete text
column. -/
theorem distribution_title_gets_suffix_witness :
    (create_distribution_chart (ColData.text [some "a", none]) "Sales" 10).title
      = some ("Sales" ++ " Distribution") :=
  distribution_title_gets_suffix (ColData.text [some "a", none]) "Sales" 10 (by decide)

/-! ## C1: chart pane 2 on one numeric and zero text columns -/

/-- C1 counterexample: on a concrete dataset with exactly one numeric
column and no text column, chart pane 2 is not the informational
placeholder panel claimed by the specification. -/
theorem dashboard_pane2_single_numeric_cex :
    dashChart2 ⟨[⟨"n", ColData.numeric true [some 1, some 2]⟩]⟩
      ≠ PaneContent.pane addMorePanel := by
  with_unfolding_all decide

/-- C1 (corrected): with exactly one numeric column and no text column the
composer takes no branch at all for chart pane 2, which therefore keeps
the untouched default pane of the layout skeleton; the informational
placeholder wording appears only in the zero-numeric single-text-column
branch. -/
theorem dashboard_pane2_single_numeric (df : DF)
    (h1 : (numericColumns df).length = 1) (h2 : (textColumns df).length = 0) :
    dashChart2 df = PaneContent.unset := by
  obtain ⟨c, hc⟩ := List.length_eq_one.mp h1
  have ht : textColumns df = [] := List.eq_nil_of_length_eq_zero h2
  unfold dashChart2
  rw [hc, ht]

/-- C1 witness: the amended statement evaluated at a concrete single
numeric column dataset. -/
theorem dashboard_pane2_single_numeric_witness :
    dashChart2 ⟨[⟨"m", ColData.numeric true [some 3]⟩]⟩ = PaneContent.unset :=
  dashboard_pane2_single_numeric ⟨[⟨"m", ColData.numeric true [some 3]⟩]⟩
    (by decide) (by decide)

/-! ## C8: empty normalized input short-circuits to the placeholder -/

/-- C8 (confirmed): whenever the normalized dataset is empty, the
dispatcher returns the single placeholder panel, whatever the view tag
is; the embedding is total, so no error can escape. -/
theorem render_empty_placeholder (inp : RawInput) (vt title now : String)
    (h : (normalize inp).isEmpty = true) :
    display_analytics inp vt title now = .panel (emptyDataPanel title) := by
  unfold display_analytics
  rw [if_pos h]

/-- C8 witness: the statement evaluated at the empty mapping with the
correlation view tag. -/
theorem render_empty_placeholder_witness :
    display_analytics (.mapping []) "correlation" "T" "now"
      = .panel (emptyDataPanel "T") :=
  render_empty_placeholder (.mapping []) "correlation" "T" "now" (by decide)

/-! ## C2: renders are byte-identical only modulo the dashboard clock -/

/-- C2 counterexample: the dashboard artifact embeds the ambient clock
reading taken inside the composer, so two renders of the same logical
input at different clock readings differ, contradicting the claim that
the core emits no timestamp of its own. -/
theorem render_dashboard_clock_cex :
    display_analytics (.frame ⟨[⟨"x", ColData.numeric true [some 1, some 2]⟩]⟩)
        "dashboard" "T" "2024-01-01 00:00:00"
      ≠ display_analytics (.frame ⟨[⟨"x", ColData.numeric true [some 1, some 2]⟩]⟩)
        "dashboard" "T" "2024-01-01 00:00:01" := by
  with_unfolding_all decide

/-- C2 (corrected): the render output is a pure function of the input,
view tag, title and clock reading; for the summary, table and correlation
views the clock is not consulted at all, so those renders are
byte-identical across re-runs, while the dashboard (and the fallback to
it) embeds the clock reading of the composer in its header. -/
theorem render_clock_independent_views (inp : RawInput) (vt title t1 t2 : String)
    (h : vt = "summary" ∨ vt = "table" ∨ vt = "correlation") :
    display_analytics inp vt title t1 = display_analytics inp vt title t2 := by
  rcases h with h | h | h <;> subst h <;> simp [display_analytics]

/-- C2 witness: the amended statement evaluated at a concrete frame with
the summary view and two different clock readings. -/
theorem render_clock_independent_views_witness :
    display_analytics (.frame ⟨[⟨"x", ColData.numeric true [some 1]⟩]⟩)
        "summary" "T" "early"
      = display_analytics (.frame ⟨[⟨"x", ColData.numeric true [some 1]⟩]⟩)
        "summary" "T" "late" :=
  render_clock_independent_views (.frame ⟨[⟨"x", ColData.numeric true [some 1]⟩]⟩)
    "summary" "T" "early" "late" (Or.inl rfl)

/-! ## Sorting lemmas for the bar chart -/

/-- The initial value bounds a left max fold from below. -/
theorem le_foldl_max (a : ℚ) (l : List ℚ) : a ≤ l.foldl max a := by
  induction l generalizing a with
  | nil => exact le_refl a
  | cons x xs ih => exact le_trans (le_max_left a x) (ih (max a x))

/-- Every member bounds a left max fold from below. -/
theorem mem_le_foldl_max (x a : ℚ) (l : List ℚ) (h : x ∈ l) : x ≤ l.foldl max a := by
  induction l generalizing a with
  | nil => cases h
  | cons y ys ih =>
    rcases List.mem_cons.mp h with rfl | hy
    · exact le_trans (le_max_right a x) (le_foldl_max _ _)
    · exact ih _ hy

/-- Every surviving entry is bounded by the chart maximum. -/
theorem mem_le_maxValOf {α : Type} (e : α × ℚ) (es : List (α × ℚ)) (h : e ∈ es) :
    e.2 ≤ maxValOf es := by
  cases es with
  | nil => cases h
  | cons x rest =>
    show e.2 ≤ (rest.map Prod.snd).foldl max x.2
    rcases List.mem_cons.mp h with rfl | hr
    · exact le_foldl_max _ _
    · exact mem_le_foldl_max _ _ _ (List.mem_map_of_mem Prod.snd hr)

/-- Truncation toward zero respects an integer upper bound. -/
theorem truncQ_le_of_le (q : ℚ) (n : ℤ) (h : q ≤ (n : ℚ)) : truncQ q ≤ n := by
  unfold truncQ
  split
  · have := Int.floor_le_floor h
    simpa using this
  · exact Int.ceil_le.mpr h

/-- A value below the maximum yields a fill bar of width at most 40. -/
theorem barWidth_le_40 (v maxv : ℚ) (h : v ≤ maxv) : barWidth v maxv ≤ 40 := by
  unfold barWidth
  split
  case isTrue hpos =>
    have h1 : v / maxv ≤ 1 := (div_le_one hpos).mpr h
    have h2 : v / maxv * 40 ≤ 40 := by nlinarith
    have h3 : truncQ (v / maxv * 40) ≤ (40 : ℤ) := truncQ_le_of_le _ _ (by exact_mod_cast h2)
    exact Int.toNat_le.mpr h3
  case isFalse _ => exact Nat.zero_le 40

/-- Membership in an ordered insertion. -/
theorem mem_insertDesc {α : Type} (x z : α × ℚ) (l : List (α × ℚ)) :
    z ∈ insertDesc x l ↔ z = x ∨ z ∈ l := by
  induction l with
  | nil => simp [insertDesc]
  | cons y ys ih =>
    unfold insertDesc
    by_cases h : y.2 ≤ x.2
    · rw [if_pos h]
      simp [List.mem_cons]
    · rw [if_neg h]
      simp [List.mem_cons, ih]
      tauto

/-- Ordered insertion preserves the non-increasing pairwise order. -/
theorem pairwise_insertDesc {α : Type} (x : α × ℚ) (l : List (α × ℚ))
    (h : l.Pairwise (fun a b => b.2 ≤ a.2)) :
    (insertDesc x l).Pairwise (fun a b => b.2 ≤ a.2) := by
  induction l with
  | nil => simp [insertDesc]
  | cons y ys ih =>
    rcases List.pairwise_cons.mp h with ⟨hy, hys⟩
    unfold insertDesc
    by_cases hc : y.2 ≤ x.2
    · rw [if_pos hc]
      refine List.pairwise_cons.mpr ⟨?_, h⟩
      intro z hz
      rcases List.mem_cons.mp hz with rfl | hzys
      · exact hc
      · exact le_trans (hy z hzys) hc
    · rw [if_neg hc]
      refine List.pairwise_cons.mpr ⟨?_, ih hys⟩
      intro z hz
      rcases (mem_insertDesc x z ys).mp hz with rfl | hzys
      · exact le_of_lt (lt_of_not_le hc)
      · exact hy z hzys

/-- The stable descending sort is pairwise non-increasing in the values. -/
theorem sortDesc_pairwise {α : Type} (l : List (α × ℚ)) :
    (sortDesc l).Pairwise (fun a b => b.2 ≤ a.2) := by
  induction l with
  | nil => simp [sortDesc]
  | cons x xs ih => exact pairwise_insertDesc x _ ih

/-- Ordered insertion commutes with filtering on one value: the element is
inserted past strictly larger values only, so each value class keeps its
order. -/
theorem filter_insertDesc {α : Type} (x : α × ℚ) (l : List (α × ℚ)) (v : ℚ) :
    (insertDesc x l).filter (fun e => decide (e.2 = v))
      = ((x :: l).filter (fun e => decide (e.2 = v))) := by
  induction l with
  | nil => rfl
  | cons y ys ih =>
    unfold insertDesc
    by_cases hc : y.2 ≤ x.2
    · rw [if_pos hc]
    · rw [if_neg hc]
      by_cases hx : x.2 = v
      · by_cases hy : y.2 = v
        · exact absurd (le_of_eq (hy.trans hx.symm)) hc
        · simp [List.filter_cons, hx, hy, ih]
      · by_cases hy : y.2 = v
        · simp [List.filter_cons, hx, hy, ih]
        · simp [List.filter_cons, hx, hy, ih]

/-- Stability of the descending sort: restricted to any one value, the
sorted list is the input list. -/
theorem sortDesc_filter {α : Type} (l : List (α × ℚ)) (v : ℚ) :
    (sortDesc l).filter (fun e => decide (e.2 = v))
      = l.filter (fun e => decide (e.2 = v)) := by
  induction l with
  | nil => rfl
  | cons x xs ih =>
    unfold sortDesc
    rw [filter_insertDesc]
    simp [List.filter_cons, ih]

/-! ## C4: bar chart shape, order and stability -/

/-- C4 (confirmed): for every non-empty input the chart has at most the
bar limit of lines, each fill bar has at most 40 fill characters, the
surviving entries are non-increasing in the value, they are the truncated
stable sort of the input, and the sort preserves the original relative
order inside every value class. -/
theorem bar_chart_shape (d : List (String × ℚ)) (mb : ℕ) (_hd : d ≠ []) :
    (chartLines d mb).length ≤ mb ∧
    (∀ l ∈ chartLines d mb, l.bar.length ≤ 40) ∧
    (chartEntries d mb).Pairwise (fun a b => b.2 ≤ a.2) ∧
    chartEntries d mb = (sortDesc d).take mb ∧
    (∀ v : ℚ, (sortDesc d).filter (fun e => decide (e.2 = v))
      = d.filter (fun e => decide (e.2 = v))) := by
  refine ⟨?_, ?_, ?_, rfl, fun v => sortDesc_filter d v⟩
  · unfold chartLines
    rw [List.length_map]
    unfold chartEntries
    rw [List.length_take]
    exact min_le_left _ _
  · intro l hl
    unfold chartLines at hl
    rcases List.mem_map.mp hl with ⟨e, he, rfl⟩
    show (String.mk (List.replicate (barWidth e.2 (maxValOf (chartEntries d mb))) '#')).length ≤ 40
    show (List.replicate (barWidth e.2 (maxValOf (chartEntries d mb))) '#').length ≤ 40
    rw [List.length_replicate]
    exact barWidth_le_40 _ _ (mem_le_maxValOf e _ he)
  · exact List.Pairwise.sublist (List.take_sublist _ _) (sortDesc_pairwise d)

/-- C4 witness: the statement evaluated at a concrete two-entry input. -/
theorem bar_chart_shape_witness :
    (chartLines [("a", 2), ("bb", 5)] 20).length ≤ 20 ∧
    (∀ l ∈ chartLines [("a", 2), ("bb", 5)] 20, l.bar.length ≤ 40) ∧
    (chartEntries [("a", 2), ("bb", 5)] 20).Pairwise (fun a b => b.2 ≤ a.2) ∧
    chartEntries [("a", 2), ("bb", 5)] 20 = (sortDesc [("a", 2), ("bb", 5)]).take 20 ∧
    (∀ v : ℚ, (sortDesc [("a", 2), ("bb", 5)]).filter (fun e => decide (e.2 = v))
      = [("a", 2), ("bb", 5)].filter (fun e => decide (e.2 = v))) :=
  bar_chart_shape [("a", 2), ("bb", 5)] 20 (by decide)

/-! ## Rounding lemmas for the value cell -/

/-- The sign-and-magnitude rendering of an integer is its decimal
rendering. -/
theorem toString_int_eq (m : ℤ) :
    (if m < 0 then "-" else "") ++ toString m.natAbs = toString m := by
  cases m with
  | ofNat n =>
    rw [if_neg (show ¬ Int.ofNat n < 0 from not_lt.mpr (Int.ofNat_nonneg n))]
    rfl
  | negSucc n =>
    rw [if_pos (Int.negSucc_lt_zero n)]
    rfl

/-- With zero decimal digits the fixed-point renderer prints exactly the
half-even rounding of the value. -/
theorem fmtFix_zero (q : ℚ) : fmtFix 0 q = toString (roundHalfEven q) := by
  simp only [fmtFix, pow_zero, mul_one, Nat.pow_zero, Nat.div_one,
    eq_self_iff_true, if_true, String.append_empty]
  exact toString_int_eq (roundHalfEven q)

/-- Half-even rounding moves a value by at most one half. -/
theorem abs_sub_roundHalfEven (q : ℚ) : |q - (roundHalfEven q : ℚ)| ≤ 1/2 := by
  have h0 : ((⌊q⌋ : ℤ) : ℚ) ≤ q := Int.floor_le q
  have h1 : q < (⌊q⌋ : ℚ) + 1 := Int.lt_floor_add_one q
  unfold roundHalfEven
  split
  case isTrue hlt =>
    rw [abs_of_nonneg (by linarith)]
    linarith
  case isFalse hge =>
    split
    case isTrue hgt =>
      rw [abs_sub_comm, abs_of_nonneg (by push_cast; linarith)]
      push_cast
      linarith
    case isFalse hle =>
      have heq : q - (⌊q⌋ : ℚ) = 1/2 := le_antisymm (not_lt.mp hle) (not_lt.mp hge)
      split
      case isTrue _ =>
        rw [abs_of_nonneg (by linarith)]
        linarith
      case isFalse _ =>
        rw [abs_sub_comm, abs_of_nonneg (by push_cast; linarith)]
        push_cast
        linarith

/-- Half-even rounding fixes integral values. -/
theorem roundHalfEven_intValued (q : ℚ) (h : q.den = 1) :
    ((roundHalfEven q : ℤ) : ℚ) = q := by
  have hq : q = (q.num : ℚ) := by
    rw [← Rat.num_div_den q, h]
    simp
  have hfloor : ⌊q⌋ = q.num := by
    rw [hq]
    exact Int.floor_intCast q.num
  have hsub : q - (⌊q⌋ : ℚ) = 0 := by
    rw [hfloor]
    exact sub_eq_zero.mpr hq
  unfold roundHalfEven
  rw [hsub]
  rw [if_pos (by norm_num : (0 : ℚ) < 1/2)]
  rw [hfloor]
  exact hq.symm

/-! ## C9: the value cell formatting -/

/-- C9 counterexample: the concrete non-integral value five halves is
rendered as the integer string 2 in the value cell, so the fractional part
is rounded away, contradicting the as-given rendering the claim states for
non-integral values. -/
theorem bar_value_cex :
    (mkChartLine 1 (5/2 : ℚ) ("a", (5/2 : ℚ))).valueStr = "       2" ∧
    ((5/2 : ℚ)).den ≠ 1 := by
  with_unfolding_all decide

/-- C9 (corrected): every chart line renders its value right-aligned to
width 8 as an integer string obtained by rounding: the printed integer is
within one half of the value, and equals the value exactly when the value
is integral.  Non-integral values are therefore rounded, not rendered as
given. -/
theorem bar_value_always_integer (maxw : ℕ) (maxv : ℚ) (label : String) (v : ℚ) :
    ∃ n : ℤ, (mkChartLine maxw maxv (label, v)).valueStr = padLeft 8 (toString n) ∧
      |v - (n : ℚ)| ≤ 1/2 ∧ (v.den = 1 → (n : ℚ) = v) := by
  refine ⟨roundHalfEven v, ?_, abs_sub_roundHalfEven v, fun h => roundHalfEven_intValued v h⟩
  show valueStr v = padLeft 8 (toString (roundHalfEven v))
  unfold valueStr
  rw [fmtFix_zero]

/-- C9 witness: the amended statement evaluated at the integral value
seven. -/
theorem bar_value_always_integer_witness :
    ∃ n : ℤ, (mkChartLine 2 (7 : ℚ) ("ab", (7 : ℚ))).valueStr = padLeft 8 (toString n) ∧
      |(7 : ℚ) - (n : ℚ)| ≤ 1/2 ∧ ((7 : ℚ).den = 1 → (n : ℚ) = 7) :=
  bar_value_always_integer 2 7 "ab" 7

/-! ## C10: all-null numeric columns in the summary -/

/-- C10 (confirmed): an all-null numeric column contributes no per-column
rows, yet the Numeric Columns row of the summary panel counts every
numeric column including it, the first-five slots are taken over the
unfiltered numeric columns, and every per-column row comes from a
first-five numeric column holding a non-null value. -/
theorem summary_allnull_numeric (df : DF) (c : Col)
    (h1 : c ∈ numericColumns df) (h2 : dropnaQ c.numVals = [])
    (h3 : df.nrows ≠ 0) :
    perColStatRows c = [] ∧
    (∀ t, ["[bold]Numeric Columns[/bold]", toString (numericColumns df).length]
      ∈ panelTableRows (create_summary_stats df t)) ∧
    summaryNumericSection df
      = ("[bold]Numeric Columns[/bold]", toString (numericColumns df).length)
        :: ((numericColumns df).take 5).flatMap perColStatRows ∧
    (∀ r ∈ ((numericColumns df).take 5).flatMap perColStatRows,
      ∃ c2 ∈ (numericColumns df).take 5, dropnaQ c2.numVals ≠ [] ∧ r ∈ perColStatRows c2) := by
  have hncs : numericColumns df ≠ [] := List.ne_nil_of_mem h1
  have hrow : ("[bold]Numeric Columns[/bold]", toString (numericColumns df).length)
      ∈ summaryRows df := by
    simp [summaryRows, summaryNumericSection, hncs]
  refine ⟨by simp [perColStatRows, h2], ?_, ?_, ?_⟩
  · intro t
    have hcols : df.cols ≠ [] := by
      intro hc0
      rw [numericColumns, hc0] at h1
      cases h1
    have hEmpty : df.isEmpty = false := by
      unfold DF.isEmpty
      rw [Bool.or_eq_false_iff]
      exact ⟨by simpa [List.isEmpty_iff] using hcols, by simpa using h3⟩
    simp only [create_summary_stats, hEmpty, Bool.false_eq_true, if_false, panelTableRows]
    exact List.mem_map.mpr ⟨_, hrow, rfl⟩
  · rw [summaryNumericSection, if_neg hncs]
  · intro r hr
    rcases List.mem_flatMap.mp hr with ⟨c2, hc2, hrc2⟩
    refine ⟨c2, hc2, ?_, hrc2⟩
    intro hnil
    simp [perColStatRows, hnil] at hrc2

/-- C10 witness: the statement evaluated at a concrete dataset with an
all-null numeric column and a populated one. -/
theorem summary_allnull_numeric_witness :
    perColStatRows ⟨"a", ColData.numeric false [none, none]⟩ = [] ∧
    (∀ t, ["[bold]Numeric Columns[/bold]",
        toString (numericColumns ⟨[⟨"a", ColData.numeric false [none, none]⟩,
          ⟨"b", ColData.numeric true [some 1, some 2]⟩]⟩).length]
      ∈ panelTableRows (create_summary_stats ⟨[⟨"a", ColData.numeric false [none, none]⟩,
          ⟨"b", ColData.numeric true [some 1, some 2]⟩]⟩ t)) ∧
    summaryNumericSection ⟨[⟨"a", ColData.numeric false [none, none]⟩,
        ⟨"b", ColData.numeric true [some 1, some 2]⟩]⟩
      = ("[bold]Numeric Columns[/bold]",
          toString (numericColumns ⟨[⟨"a", ColData.numeric false [none, none]⟩,
            ⟨"b", ColData.numeric true [some 1, some 2]⟩]⟩).length)
        :: ((numericColumns ⟨[⟨"a", ColData.numeric false [none, none]⟩,
            ⟨"b", ColData.numeric true [some 1, some 2]⟩]⟩).take 5).flatMap perColStatRows ∧
    (∀ r ∈ ((numericColumns ⟨[⟨"a", ColData.numeric false [none, none]⟩,
          ⟨"b", ColData.numeric true [some 1, some 2]⟩]⟩).take 5).flatMap perColStatRows,
      ∃ c2 ∈ (numericColumns ⟨[⟨"a", ColData.numeric false [none, none]⟩,
          ⟨"b", ColData.numeric true [some 1, some 2]⟩]⟩).take 5,
        dropnaQ c2.numVals ≠ [] ∧ r ∈ perColStatRows c2) :=
  summary_allnull_numeric
    ⟨[⟨"a", ColData.numeric false [none, none]⟩, ⟨"b", ColData.numeric true [some 1, some 2]⟩]⟩
    ⟨"a", ColData.numeric false [none, none]⟩
    (by decide) (by decide) (by decide)

/-! ## Correlation lemmas -/

/-- Swapping the column order swaps the pairwise complete observations. -/
theorem pairComplete_swap (x y : List (Option ℚ)) :
    pairComplete y x = (pairComplete x y).map Prod.swap := by
  unfold pairComplete
  rw [← List.zip_swap, List.filterMap_map, List.map_filterMap]
  congr 1
  funext p
  rcases p with ⟨a, b⟩
  cases a <;> cases b <;> rfl

/-- The deviation cross sum is invariant under swapping the pairs. -/
theorem sxy_map_swap (ps : List (ℚ × ℚ)) : sxy (ps.map Prod.swap) = sxy ps := by
  unfold sxy
  rw [List.map_map, List.map_map, List.map_map]
  have h1 : (Prod.fst ∘ Prod.swap : ℚ × ℚ → ℚ) = Prod.snd := funext fun p => rfl
  have h2 : (Prod.snd ∘ Prod.swap : ℚ × ℚ → ℚ) = Prod.fst := funext fun p => rfl
  rw [h1, h2]
  have hfun : ((fun p : ℚ × ℚ =>
        (p.1 - meanQ (ps.map Prod.snd)) * (p.2 - meanQ (ps.map Prod.fst))) ∘ Prod.swap)
      = fun p : ℚ × ℚ =>
        (p.1 - meanQ (ps.map Prod.fst)) * (p.2 - meanQ (ps.map Prod.snd)) := by
    funext p
    show (p.2 - meanQ (ps.map Prod.snd)) * (p.1 - meanQ (ps.map Prod.fst))
      = (p.1 - meanQ (ps.map Prod.fst)) * (p.2 - meanQ (ps.map Prod.snd))
    ring
  rw [hfun]

/-- Swapping the pairs exchanges the two deviation square sums. -/
theorem sxx_map_swap (ps : List (ℚ × ℚ)) : sxx (ps.map Prod.swap) = syy ps := by
  unfold sxx syy
  rw [List.map_map]
  rfl

/-- Swapping the pairs exchanges the two deviation square sums. -/
theorem syy_map_swap (ps : List (ℚ × ℚ)) : syy (ps.map Prod.swap) = sxx ps := by
  unfold sxx syy
  rw [List.map_map]
  rfl

/-- The signed-square correlation is symmetric in its two columns. -/
theorem corrSS_comm (x y : List (Option ℚ)) : corrSS x y = corrSS y x := by
  unfold corrSS
  simp only [pairComplete_swap x y, sxy_map_swap, sxx_map_swap, syy_map_swap,
    List.map_eq_nil_iff, mul_comm (syy (pairComplete x y)) (sxx (pairComplete x y))]

/-- The pairwise complete observations of a column with itself are its
non-null values on the diagonal. -/
theorem pairComplete_self (x : List (Option ℚ)) :
    pairComplete x x = (dropnaQ x).map (fun a => (a, a)) := by
  induction x with
  | nil => rfl
  | cons o rest ih =>
    cases o with
    | none =>
      simpa [pairComplete, dropnaQ, List.filterMap_cons] using ih
    | some a =>
      simpa [pairComplete, dropnaQ, List.filterMap_cons] using ih

/-- The deviation cross sum of a diagonal pair list is a sum of squares. -/
theorem sxy_diag_nonneg (l : List ℚ) : 0 ≤ sxy (l.map (fun a => (a, a))) := by
  unfold sxy
  have hfst : (l.map (fun a => (a, a))).map Prod.fst = l := by
    induction l with
    | nil => rfl
    | cons a t ih =>
      simp only [List.map_cons]
      rw [ih]
  have hsnd : (l.map (fun a => (a, a))).map Prod.snd = l := by
    clear hfst
    induction l with
    | nil => rfl
    | cons a t ih =>
      simp only [List.map_cons]
      rw [ih]
  rw [hfst, hsnd]
  apply List.sum_nonneg
  intro q hq
  rcases List.mem_map.mp hq with ⟨p, hp, rfl⟩
  rcases List.mem_map.mp hp with ⟨a, ha, rfl⟩
  exact mul_self_nonneg _

/-- On a diagonal pair list the first deviation square sum is the cross
sum. -/
theorem sxx_diag (l : List ℚ) : sxx (l.map (fun a => (a, a))) = sxy (l.map (fun a => (a, a))) := by
  unfold sxx
  rw [List.map_map]
  rfl

/-- On a diagonal pair list the second deviation square sum is the cross
sum. -/
theorem syy_diag (l : List ℚ) : syy (l.map (fun a => (a, a))) = sxy (l.map (fun a => (a, a))) := by
  unfold syy
  rw [List.map_map]
  rfl

/-- The signed-square correlation of a column with itself is one whenever
its deviation square sum does not vanish. -/
theorem corrSS_self (x : List (Option ℚ)) (h : sxx (pairComplete x x) ≠ 0) :
    corrSS x x = some 1 := by
  have hdiag := pairComplete_self x
  have hxx : sxx (pairComplete x x) = sxy (pairComplete x x) := by
    rw [hdiag]
    exact sxx_diag (dropnaQ x)
  have hyy : syy (pairComplete x x) = sxy (pairComplete x x) := by
    rw [hdiag]
    exact syy_diag (dropnaQ x)
  have hnn : 0 ≤ sxy (pairComplete x x) := by
    rw [hdiag]
    exact sxy_diag_nonneg (dropnaQ x)
  have hs : sxy (pairComplete x x) ≠ 0 := by
    rw [← hxx]
    exact h
  have hpos : 0 < sxy (pairComplete x x) := lt_of_le_of_ne hnn (Ne.symm hs)
  have hne : pairComplete x x ≠ [] := by
    intro h0
    apply h
    rw [h0]
    rfl
  unfold corrSS
  rw [if_neg hne, hxx, hyy, if_neg (mul_ne_zero hs hs), abs_of_pos hpos,
    div_self (mul_ne_zero hs hs)]

/-! ## C6: correlation matrix symmetry and unit diagonal -/

/-- C6 (confirmed): with at least two numeric columns, the computed
correlation matrix is symmetric and every diagonal entry of a column with
a non-vanishing deviation square sum over its non-null values equals
one (in the signed-square representation of the entries). -/
theorem corr_matrix_symm_diag (df : DF)
    (_h2 : 2 ≤ (numericColumns df).length) :
    (∀ i j, corrEntry df i j = corrEntry df j i) ∧
    (∀ i, sxx (pairComplete (numColVals df i) (numColVals df i)) ≠ 0 →
      corrEntry df i i = some 1) :=
  ⟨fun _ _ => corrSS_comm _ _, fun _ hvar => corrSS_self _ hvar⟩

/-- C6 witness: the statement evaluated at a concrete two-column frame. -/
theorem corr_matrix_symm_diag_witness :
    (∀ i j, corrEntry ⟨[⟨"x", ColData.numeric true [some 1, some 2]⟩,
        ⟨"y", ColData.numeric true [some 2, some 1]⟩]⟩ i j
      = corrEntry ⟨[⟨"x", ColData.numeric true [some 1, some 2]⟩,
        ⟨"y", ColData.numeric true [some 2, some 1]⟩]⟩ j i) ∧
    (∀ i, sxx (pairComplete
        (numColVals ⟨[⟨"x", ColData.numeric true [some 1, some 2]⟩,
          ⟨"y", ColData.numeric true [some 2, some 1]⟩]⟩ i)
        (numColVals ⟨[⟨"x", ColData.numeric true [some 1, some 2]⟩,
          ⟨"y", ColData.numeric true [some 2, some 1]⟩]⟩ i)) ≠ 0 →
      corrEntry ⟨[⟨"x", ColData.numeric true [some 1, some 2]⟩,
        ⟨"y", ColData.numeric true [some 2, some 1]⟩]⟩ i i = some 1) :=
  corr_matrix_symm_diag
    ⟨[⟨"x", ColData.numeric true [some 1, some 2]⟩,
      ⟨"y", ColData.numeric true [some 2, some 1]⟩]⟩ (by decide)

/-! ## Histogram lemmas -/

/-- The initial value bounds a left min fold from above. -/
theorem foldl_min_le (a : ℚ) (l : List ℚ) : l.foldl min a ≤ a := by
  induction l generalizing a with
  | nil => exact le_refl a
  | cons x xs ih => exact le_trans (ih (min a x)) (min_le_left a x)

/-- On non-empty input the list minimum is at most the list maximum. -/
theorem listMin_le_listMax (l : List ℚ) (h : l ≠ []) : listMin l ≤ listMax l := by
  cases l with
  | nil => exact absurd rfl h
  | cons v vs =>
    show vs.foldl min v ≤ vs.foldl max v
    exact le_trans (foldl_min_le v vs) (le_foldl_max v vs)

/-- The histogram range lower edge bounds the minimum from below. -/
theorem histLo_le (vals : List ℚ) : histLo vals ≤ listMin vals := by
  unfold histLo
  split
  · linarith
  · exact le_refl _

/-- The histogram range upper edge bounds the maximum from above. -/
theorem le_histHi (vals : List ℚ) : listMax vals ≤ histHi vals := by
  unfold histHi
  split
  · linarith
  · exact le_refl _

/-- The common bin width is positive on non-empty data with at least one
bin. -/
theorem histW_pos (vals : List ℚ) (B : ℕ) (hv : vals ≠ []) (hB : B ≠ 0) :
    0 < histW vals B := by
  have hBQ : (0 : ℚ) < (B : ℚ) := by exact_mod_cast Nat.pos_of_ne_zero hB
  unfold histW histHi histLo
  by_cases hd : listMin vals = listMax vals
  · rw [if_pos hd, if_pos hd]
    have he : listMax vals + 1/2 - (listMin vals - 1/2) = 1 := by
      rw [hd]
      ring
    rw [he]
    exact div_pos one_pos hBQ
  · rw [if_neg hd, if_neg hd]
    have hle := listMin_le_listMax vals hv
    have hlt : listMin vals < listMax vals := lt_of_le_of_ne hle hd
    apply div_pos
    · linarith
    · exact hBQ

/-- Walking all bins ends exactly at the upper range edge. -/
theorem histLo_add_mul (vals : List ℚ) (B : ℕ) (hB : B ≠ 0) :
    histLo vals + (B : ℚ) * histW vals B = histHi vals := by
  have hBQ : (B : ℚ) ≠ 0 := Nat.cast_ne_zero.mpr hB
  unfold histW
  have h1 : (B : ℚ) * ((histHi vals - histLo vals) / B) = histHi vals - histLo vals := by
    rw [mul_comm]
    exact div_mul_cancel₀ _ hBQ
  rw [h1]
  ring

/-- The produced bins of a successful histogram computation. -/
theorem npHistogram_eq (vals : List ℚ) (B : ℕ) (bs : List Bin)
    (hsome : npHistogram vals B = some bs) :
    bs = (List.range B).map (binAt vals B) ∧ ¬ vals = [] ∧ ¬ B = 0 := by
  by_cases hc : vals = [] ∨ B = 0
  · rw [npHistogram, if_pos hc] at hsome
    cases hsome
  · rw [npHistogram, if_neg hc] at hsome
    injection hsome with hbs
    push_neg at hc
    exact ⟨hbs.symm, hc.1, hc.2⟩

/-- Reading one bin of a successful histogram computation. -/
theorem npHistogram_get (vals : List ℚ) (B : ℕ) (bs : List Bin)
    (hsome : npHistogram vals B = some bs) (i : ℕ) (hi : i < bs.length) :
    bs.get ⟨i, hi⟩ = binAt vals B i := by
  rcases npHistogram_eq vals B bs hsome with ⟨hbs, -, -⟩
  subst hbs
  simp [List.get_eq_getElem]

/-- Membership in a Python dict insertion comes from the inserted pair or
the previous entries. -/
theorem mem_dictInsert (k : String) (v : ℚ) (d : List (String × ℚ)) (p : String × ℚ)
    (h : p ∈ dictInsert k v d) : p = (k, v) ∨ p ∈ d := by
  induction d with
  | nil =>
    left
    simpa [dictInsert] using h
  | cons q qs ih =>
    unfold dictInsert at h
    by_cases hq : q.1 = k
    · rw [if_pos hq] at h
      rcases List.mem_cons.mp h with rfl | hqs
      · left
        rfl
      · right
        exact List.mem_cons_of_mem q hqs
    · rw [if_neg hq] at h
      rcases List.mem_cons.mp h with rfl | hrest
      · right
        exact List.mem_cons_self _ _
      · rcases ih hrest with h1 | h2
        · left
          exact h1
        · right
          exact List.mem_cons_of_mem _ h2

/-- Membership in a folded dict build comes from the accumulator or the
input pairs. -/
theorem mem_dictOf_aux (ps : List (String × ℚ)) (acc : List (String × ℚ)) (p : String × ℚ)
    (h : p ∈ ps.foldl (fun d q => dictInsert q.1 q.2 d) acc) : p ∈ acc ∨ p ∈ ps := by
  induction ps generalizing acc with
  | nil =>
    left
    exact h
  | cons q qs ih =>
    rcases ih (dictInsert q.1 q.2 acc) h with hacc | hqs
    · rcases mem_dictInsert q.1 q.2 acc p hacc with h1 | h2
      · right
        rw [h1]
        exact List.mem_cons_self q qs
      · left
        exact h2
    · right
      exact List.mem_cons_of_mem q hqs

/-- Every entry of a built dict is one of the inserted pairs. -/
theorem mem_dictOf (ps : List (String × ℚ)) (p : String × ℚ) (h : p ∈ dictOf ps) :
    p ∈ ps := by
  rcases mem_dictOf_aux ps [] p h with h0 | h1
  · cases h0
  · exact h1

/-! ## C7: histogram intervals -/

/-- C7 (confirmed): on a successful binning the histogram yields at most
the requested number of intervals, adjacent intervals share an edge, each
interval has positive width, the first interval starts at or below the
minimum and the last ends at or above the maximum, and every chart entry
of the numeric path is one of the produced bins under the one-decimal
lo-hi label; when binning fails the numeric path produces exactly the
top-of-frequency chart data of the categorical path. -/
theorem histogram_bins_shape (vals : List ℚ) (B : ℕ) (hv : vals ≠ []) :
    (∀ bs, npHistogram vals B = some bs →
      bs.length ≤ B ∧
      0 < bs.length ∧
      (∀ i (h : i + 1 < bs.length),
        (bs.get ⟨i, Nat.lt_of_succ_lt h⟩).hi = (bs.get ⟨i + 1, h⟩).lo) ∧
      (∀ i (h : i < bs.length), (bs.get ⟨i, h⟩).lo < (bs.get ⟨i, h⟩).hi) ∧
      (∀ h0 : 0 < bs.length, (bs.get ⟨0, h0⟩).lo ≤ listMin vals) ∧
      (∀ hL : bs.length - 1 < bs.length,
        listMax vals ≤ (bs.get ⟨bs.length - 1, hL⟩).hi) ∧
      (∀ kv ∈ numericDistData vals B,
        ∃ b ∈ bs, kv = (fmtFix 1 b.lo ++ "-" ++ fmtFix 1 b.hi, (b.count : ℚ)))) ∧
    (npHistogram vals B = none →
      numericDistData vals B
        = ((value_counts vals).take B).map (fun p => (toString p.1, p.2))) := by
  constructor
  · intro bs hsome
    rcases npHistogram_eq vals B bs hsome with ⟨hbs, -, hB⟩
    have hlen : bs.length = B := by
      rw [hbs]
      simp
    have hw : 0 < histW vals B := histW_pos vals B hv hB
    refine ⟨le_of_eq hlen, ?_, ?_, ?_, ?_, ?_, ?_⟩
    · rw [hlen]
      exact Nat.pos_of_ne_zero hB
    · intro i h
      rw [npHistogram_get vals B bs hsome i (Nat.lt_of_succ_lt h),
        npHistogram_get vals B bs hsome (i + 1) h]
      simp only [binAt]
      push_cast
      ring
    · intro i h
      rw [npHistogram_get vals B bs hsome i h]
      simp only [binAt]
      nlinarith [hw]
    · intro h0
      rw [npHistogram_get vals B bs hsome 0 h0]
      simp only [binAt]
      push_cast
      have := histLo_le vals
      linarith
    · intro hL
      rw [npHistogram_get vals B bs hsome (bs.length - 1) hL]
      simp only [binAt]
      have hcast : ((bs.length - 1 : ℕ) : ℚ) + 1 = (B : ℚ) := by
        rw [hlen]
        have h1 : (B - 1 : ℕ) + 1 = B := Nat.succ_pred_eq_of_pos (Nat.pos_of_ne_zero hB)
        exact_mod_cast h1
      rw [hcast, histLo_add_mul vals B hB]
      exact le_histHi vals
    · intro kv hkv
      unfold numericDistData at hkv
      rw [hsome] at hkv
      have hmem := mem_dictOf _ _ hkv
      rcases List.mem_map.mp hmem with ⟨b, hb, hlab⟩
      exact ⟨b, hb, hlab.symm⟩
  · intro hnone
    unfold numericDistData
    rw [hnone]

/-- C7 witness: the statement evaluated at a concrete three-value column
with two bins. -/
theorem histogram_bins_shape_witness :
    (∀ bs, npHistogram [1, 2, 2] 2 = some bs →
      bs.length ≤ 2 ∧
      0 < bs.length ∧
      (∀ i (h : i + 1 < bs.length),
        (bs.get ⟨i, Nat.lt_of_succ_lt h⟩).hi = (bs.get ⟨i + 1, h⟩).lo) ∧
      (∀ i (h : i < bs.length), (bs.get ⟨i, h⟩).lo < (bs.get ⟨i, h⟩).hi) ∧
      (∀ h0 : 0 < bs.length, (bs.get ⟨0, h0⟩).lo ≤ listMin [1, 2, 2]) ∧
      (∀ hL : bs.length - 1 < bs.length,
        listMax [1, 2, 2] ≤ (bs.get ⟨bs.length - 1, hL⟩).hi) ∧
      (∀ kv ∈ numericDistData [1, 2, 2] 2,
        ∃ b ∈ bs, kv = (fmtFix 1 b.lo ++ "-" ++ fmtFix 1 b.hi, (b.count : ℚ)))) ∧
    (npHistogram [1, 2, 2] 2 = none →
      numericDistData [1, 2, 2] 2
        = ((value_counts [1, 2, 2]).take 2).map (fun p => (toString p.1, p.2))) :=
  histogram_bins_shape [1, 2, 2] 2 (by decide)

end AnalyticsViz
